import Mathlib

/-!
Verification of the BAREOS director job queue (`core/src/dird/jobq.cc`)
against its natural-language specification.

The C++ code is shallowly embedded: the mutable per-resource concurrency
counters (`NumConcurrentJobs`, `NumConcurrentReadJobs`) become a `Registry`
of integer-valued maps keyed by resource identity, the per-job mutable state
becomes the `JCR` record, and each source function becomes a pure Lean
function from the old state to the new state together with its return value.
Configuration constants (`MaxConcurrentJobs`, reschedule policy, priority
mixing) live in `Config`, immutable during the operations considered here.

Pointers to resources are modelled by natural-number identities; a null
pointer is `Option.none`.  Fatal log messages emitted by the decrement
operations are collected in a returned list so that the logging behaviour is
observable.
-/

namespace Bareos

/-- Job status values read or written by the job queue (JS_* constants).
`Unset` models the sentinel `JobStatus = -1` stored by `RescheduleJob`. -/
inductive JobStatus where
  | WaitStartTime
  | WaitPriority
  | WaitClientRes
  | WaitStoreRes
  | WaitJobRes
  | Ready
  | Running
  | Canceled
  | ErrorTerminated
  | Incomplete
  | TerminatedOk
  | Unset
  deriving DecidableEq, Repr

/-- Job types distinguished by the queue (JT_* constants). -/
inductive JobType where
  | Backup
  | Restore
  | Verify
  | Admin
  | Migrate
  | Copy
  | Consolidate
  deriving DecidableEq, Repr

/-- Job levels; the reschedule engine only distinguishes `Base` (L_BASE)
from everything else. -/
inductive JobLevel where
  | Base
  | Full
  | Incremental
  | Differential
  deriving DecidableEq, Repr

/-- Per-resource configuration constants consumed by `jobq.cc`, keyed by the
resource identity: `MaxConcurrentJobs` of clients, job definitions and
storages, and the job-definition policy flags used by the worker loop and
the reschedule engine. -/
structure Config where
  clientMax : Nat → Int
  jobMax : Nat → Int
  storeMax : Nat → Int
  jobAllowMixed : Nat → Bool
  jobRescheduleOnError : Nat → Bool
  jobRescheduleIncomplete : Nat → Bool
  jobRescheduleTimes : Nat → Nat
  jobRescheduleInterval : Nat → Int

/-- The mutable counters of the concurrency registry, keyed by resource
identity: `rcs->NumConcurrentJobs` per client, `rjs->NumConcurrentJobs` per
job definition, and `runtime_storage_status->NumConcurrentJobs` /
`NumConcurrentReadJobs` per storage. -/
@[ext]
structure Registry where
  clientNCJ : Nat → Int
  jobNCJ : Nat → Int
  storeNCJ : Nat → Int
  storeNCRJ : Nat → Int

/-- The fields of a `JobControlRecord` (and its `impl`) read or written by
the job queue.  Resource references (`res.client`, `res.read_storage`,
`res.write_storage`) are optional identities; `res.job` is always set.  List
membership in the queue models pointer identity: distinct jobs are given
distinct `JobId`s. -/
structure JCR where
  JobId : Nat
  jobType : JobType
  jobLevel : JobLevel
  status : JobStatus
  priority : Int
  client : Option Nat
  jobRes : Nat
  read_storage : Option Nat
  write_storage : Option Nat
  IgnoreClientConcurrency : Bool
  IgnoreStorageConcurrency : Bool
  acquired_resource_locks : Bool
  MigrateJobId : Nat
  reschedule_count : Nat
  sched_time : Int
  JobBytes : Nat
  JobErrors : Nat
  canceled : Bool
  deriving DecidableEq, Repr

/-- Result of a try-increment operation: the returned boolean and the
registry afterwards. -/
structure IncResult where
  ok : Bool
  st : Registry

/-- Result of a decrement operation: the registry afterwards and the fatal
messages emitted (`Jmsg(..., M_FATAL, ...)`). -/
structure DecResult where
  st : Registry
  fatal : List String

/-- IncClientConcurrency from the source: returns true without touching any
counter when the client reference is unset or `IgnoreClientConcurrency` is
set; otherwise increments the client's `NumConcurrentJobs` and returns true
exactly when it was below `MaxConcurrentJobs`. -/
def IncClientConcurrency (cfg : Config) (jcr : JCR) (st : Registry) : IncResult :=
  match jcr.client with
  | none => ⟨true, st⟩
  | some c =>
    if jcr.IgnoreClientConcurrency then ⟨true, st⟩
    else if st.clientNCJ c < cfg.clientMax c then
      ⟨true, { st with clientNCJ := Function.update st.clientNCJ c (st.clientNCJ c + 1) }⟩
    else ⟨false, st⟩

/-- DecClientConcurrency from the source: a no-op when
`IgnoreClientConcurrency` is set or the client reference is unset; otherwise
decrements the client's counter.  No fatal message is ever emitted. -/
def DecClientConcurrency (jcr : JCR) (st : Registry) : DecResult :=
  if jcr.IgnoreClientConcurrency then ⟨st, []⟩
  else
    match jcr.client with
    | none => ⟨st, []⟩
    | some c =>
      ⟨{ st with clientNCJ := Function.update st.clientNCJ c (st.clientNCJ c - 1) }, []⟩

/-- IncJobConcurrency from the source: unconditionally tests the job
definition's `NumConcurrentJobs` against its `MaxConcurrentJobs` (there is
no ignore flag and no null guard for the job definition) and increments on
success. -/
def IncJobConcurrency (cfg : Config) (jcr : JCR) (st : Registry) : IncResult :=
  if st.jobNCJ jcr.jobRes < cfg.jobMax jcr.jobRes then
    ⟨true, { st with jobNCJ := Function.update st.jobNCJ jcr.jobRes (st.jobNCJ jcr.jobRes + 1) }⟩
  else ⟨false, st⟩

/-- DecJobConcurrency from the source: unconditionally decrements the job
definition's counter.  No fatal message is ever emitted. -/
def DecJobConcurrency (jcr : JCR) (st : Registry) : DecResult :=
  ⟨{ st with jobNCJ := Function.update st.jobNCJ jcr.jobRes (st.jobNCJ jcr.jobRes - 1) }, []⟩

/-- IncReadStore from the source: returns true without touching any counter
when `IgnoreStorageConcurrency` is set; otherwise tests the read storage's
`NumConcurrentJobs` against its `MaxConcurrentJobs` and on success
increments both `NumConcurrentReadJobs` and `NumConcurrentJobs`.  The source
dereferences the read-storage pointer without a null check and is only
called with it set; the unreachable `none` case is modelled as a no-op
success. -/
def IncReadStore (cfg : Config) (jcr : JCR) (st : Registry) : IncResult :=
  if jcr.IgnoreStorageConcurrency then ⟨true, st⟩
  else
    match jcr.read_storage with
    | none => ⟨true, st⟩
    | some s =>
      if st.storeNCJ s < cfg.storeMax s then
        ⟨true,
         { st with
            storeNCRJ := Function.update st.storeNCRJ s (st.storeNCRJ s + 1),
            storeNCJ := Function.update st.storeNCJ s (st.storeNCJ s + 1) }⟩
      else ⟨false, st⟩

/-- DecReadStore from the source: when the read-storage reference is set and
`IgnoreStorageConcurrency` is clear, decrements both `NumConcurrentReadJobs`
and `NumConcurrentJobs`, and emits a fatal message for each of the two
counters whose new value is negative; otherwise a no-op. -/
def DecReadStore (jcr : JCR) (st : Registry) : DecResult :=
  match jcr.read_storage with
  | none => ⟨st, []⟩
  | some s =>
    if jcr.IgnoreStorageConcurrency then ⟨st, []⟩
    else
      let ncrj := st.storeNCRJ s - 1
      let ncj := st.storeNCJ s - 1
      ⟨{ st with
          storeNCRJ := Function.update st.storeNCRJ s ncrj,
          storeNCJ := Function.update st.storeNCJ s ncj },
       (if ncrj < 0 then ["NumConcurrentReadJobs Dec Rstore"] else [])
         ++ (if ncj < 0 then ["NumConcurrentJobs Dec Rstore"] else [])⟩

/-- IncWriteStore from the source: returns true without touching any counter
when `IgnoreStorageConcurrency` is set; otherwise tests the write storage's
`NumConcurrentJobs` against its `MaxConcurrentJobs` and increments it on
success.  As with `IncReadStore`, the pointer is dereferenced without a null
check and the unreachable `none` case is modelled as a no-op success. -/
def IncWriteStore (cfg : Config) (jcr : JCR) (st : Registry) : IncResult :=
  if jcr.IgnoreStorageConcurrency then ⟨true, st⟩
  else
    match jcr.write_storage with
    | none => ⟨true, st⟩
    | some s =>
      if st.storeNCJ s < cfg.storeMax s then
        ⟨true, { st with storeNCJ := Function.update st.storeNCJ s (st.storeNCJ s + 1) }⟩
      else ⟨false, st⟩

/-- DecWriteStore from the source: when the write-storage reference is set
and `IgnoreStorageConcurrency` is clear, decrements the storage's
`NumConcurrentJobs` and emits a fatal message when the new value is
negative; otherwise a no-op. -/
def DecWriteStore (jcr : JCR) (st : Registry) : DecResult :=
  match jcr.write_storage with
  | none => ⟨st, []⟩
  | some s =>
    if jcr.IgnoreStorageConcurrency then ⟨st, []⟩
    else
      let ncj := st.storeNCJ s - 1
      ⟨{ st with storeNCJ := Function.update st.storeNCJ s ncj },
       if ncj < 0 then ["NumConcurrentJobs Dec Wstore"] else []⟩

/-- The job-type switch at the top of `AcquireResources`: Migrate, Copy and
Consolidate jobs set `IgnoreClientConcurrency`, and their control variants
(`MigrateJobId == 0`) additionally set `IgnoreStorageConcurrency`. -/
def applyTypeFlags (jcr : JCR) : JCR :=
  match jcr.jobType with
  | .Migrate | .Copy | .Consolidate =>
    let j := { jcr with IgnoreClientConcurrency := true }
    if j.MigrateJobId = 0 then { j with IgnoreStorageConcurrency := true } else j
  | _ => jcr

/-- Result of `AcquireResources`: the updated job record, the updated
registry, and the boolean return value. -/
structure AcqResult where
  jcr : JCR
  st : Registry
  ok : Bool

/-- AcquireResources from the source.  It clears
`acquired_resource_locks`, applies the job-type exceptions, then attempts
the permits in the fixed order read-storage (only when the reference is
set), write-storage (only when the reference is set), client, job
definition.  On a failing permit it releases the previously acquired
permits — `DecReadStore` after a write-storage failure; `DecWriteStore`
then `DecReadStore` after a client failure; `DecWriteStore`,
`DecReadStore` then `DecClientConcurrency` after a job-definition failure —
sets the corresponding wait status and returns false.  On success it sets
`acquired_resource_locks` and returns true. -/
def AcquireResources (cfg : Config) (jcr0 : JCR) (st0 : Registry) : AcqResult :=
  let jcr := applyTypeFlags { jcr0 with acquired_resource_locks := false }
  let r1 := if jcr.read_storage.isSome then IncReadStore cfg jcr st0 else ⟨true, st0⟩
  if r1.ok then
    let r2 := if jcr.write_storage.isSome then IncWriteStore cfg jcr r1.st else ⟨true, r1.st⟩
    if r2.ok then
      let r3 := IncClientConcurrency cfg jcr r2.st
      if r3.ok then
        let r4 := IncJobConcurrency cfg jcr r3.st
        if r4.ok then
          ⟨{ jcr with acquired_resource_locks := true }, r4.st, true⟩
        else
          ⟨{ jcr with status := .WaitJobRes },
           (DecClientConcurrency jcr (DecReadStore jcr (DecWriteStore jcr r4.st).st).st).st,
           false⟩
      else
        ⟨{ jcr with status := .WaitClientRes },
         (DecReadStore jcr (DecWriteStore jcr r3.st).st).st, false⟩
    else
      ⟨{ jcr with status := .WaitStoreRes }, (DecReadStore jcr r2.st).st, false⟩
  else
    ⟨{ jcr with status := .WaitStoreRes }, r1.st, false⟩

/-- The four permit classes attempted by `AcquireResources`. -/
inductive Permit where
  | readStore
  | writeStore
  | client
  | jobdef
  deriving DecidableEq, Repr

/-- The wait status the source stores for a failure of each permit class:
`JS_WaitStoreRes` for either storage permit, `JS_WaitClientRes` for the
client permit, `JS_WaitJobRes` for the job-definition permit. -/
def waitKind : Permit → JobStatus
  | .readStore => .WaitStoreRes
  | .writeStore => .WaitStoreRes
  | .client => .WaitClientRes
  | .jobdef => .WaitJobRes

/-- The first permit whose try-increment fails along the acquisition path of
`AcquireResources`, or `none` when every needed permit is granted; an
observer running the same pipeline of guards. -/
def failingPermit (cfg : Config) (jcr0 : JCR) (st0 : Registry) : Option Permit :=
  let jcr := applyTypeFlags { jcr0 with acquired_resource_locks := false }
  let r1 := if jcr.read_storage.isSome then IncReadStore cfg jcr st0 else ⟨true, st0⟩
  if r1.ok then
    let r2 := if jcr.write_storage.isSome then IncWriteStore cfg jcr r1.st else ⟨true, r1.st⟩
    if r2.ok then
      let r3 := IncClientConcurrency cfg jcr r2.st
      if r3.ok then
        let r4 := IncJobConcurrency cfg jcr r3.st
        if r4.ok then none else some .jobdef
      else some .client
    else some .writeStore
  else some .readStore

/-- The reschedule-candidate test of `RescheduleJob`: the cap
(`RescheduleTimes == 0` or the count is below it) and then either the
incomplete-backup case or the failed-backup case.  The status helpers of
the record (`IsIncomplete`, `IsTerminatedOk`, `is_JobStatus(JS_Canceled)`)
are declared outside this repository; modelled from the spec as equality
with the `Incomplete`, `TerminatedOk` and `Canceled` status values. -/
def reschedOk (cfg : Config) (jcr : JCR) : Bool :=
  (cfg.jobRescheduleTimes jcr.jobRes == 0
      || jcr.reschedule_count < cfg.jobRescheduleTimes jcr.jobRes)
    && ((cfg.jobRescheduleIncomplete jcr.jobRes && jcr.status == .Incomplete
          && jcr.jobType == .Backup && !(jcr.jobLevel == .Base))
        || (cfg.jobRescheduleOnError jcr.jobRes && !(jcr.status == .TerminatedOk)
            && !(jcr.status == .Canceled) && jcr.jobType == .Backup))

/-- RescheduleJob from the source, as its effect on the terminated job
record and its boolean return value (`retval`).  `allowDup` is the result
of the external duplicate-job oracle `AllowDuplicateJob`; `now` is
`time(NULL)`.  When the candidate test passes, the count is incremented,
`sched_time` becomes `now + RescheduleInterval`, the status sentinel `-1`
(`Unset`) and cleared error count are stored, all before the oracle is
consulted.  With no bytes written the same record is resubmitted via
`JobqAdd` and `retval` becomes true; with bytes written a new record is
built by the external factory and run by the external `RunJob` (both
outside this file's scope), the original record's status is set to
`JS_WaitStartTime`, and `retval` stays false. -/
def RescheduleJob (cfg : Config) (allowDup : Bool) (now : Int) (jcr0 : JCR) : JCR × Bool :=
  if reschedOk cfg jcr0 then
    let jcr1 : JCR :=
      { jcr0 with
          reschedule_count := jcr0.reschedule_count + 1,
          sched_time := now + cfg.jobRescheduleInterval jcr0.jobRes,
          status := .Unset,
          JobErrors := 0 }
    if allowDup then
      if jcr1.JobBytes == 0 then (jcr1, true)
      else ({ jcr1 with status := .WaitStartTime }, false)
    else (jcr1, false)
  else (jcr0, false)

/-- The three intrusive lists of the queue and its `valid` flag.  List
elements stand for the jcr pointers held by the queue. -/
structure Jobq where
  valid : Bool
  waiting : List JCR
  ready : List JCR
  running : List JCR
  deriving DecidableEq, Repr

/-- The libc error code returned for an invalid queue and for a jcr not
found by `JobqRemove`; only its being nonzero matters here. -/
def EINVAL : Int := 22

/-- The std::list insert performed by the waiting-queue insertion loop of
`JobqAdd`: `insert(std::find(begin, end, x), x)` places a copy of `x`
immediately before the first element equal to `x` (appending when absent). -/
def insertBeforeFirstEq (x : JCR) : List JCR → List JCR
  | [] => [x]
  | y :: t => if y = x then x :: y :: t else y :: insertBeforeFirstEq x t

/-- The waiting-queue insertion loop of `JobqAdd` as written in the source:
it scans for the first entry `li` with `li->JobPriority > jcr->JobPriority`
and, when found, executes `waiting_jobs.insert(std::find(..., li), li)` —
inserting the found entry `li` itself, not the submitted `jcr` (the
commented-out `InsertBefore(item, li)` next to it shows the intended
call); only when no such entry exists is the submitted `jcr` appended. -/
def jobqAddWaiting (jcr : JCR) (ws : List JCR) : List JCR :=
  match ws.find? (fun li => jcr.priority < li.priority) with
  | some li => insertBeforeFirstEq li ws
  | none => ws ++ [jcr]

/-- JobqAdd from the source restricted to jobs whose scheduled time has
arrived (otherwise a scheduled-start waiter thread is spawned and the queue
is untouched): on an invalid queue return `EINVAL`; a canceled jcr is
pushed to the front of the ready list; otherwise the waiting list is
rewritten by the insertion loop `jobqAddWaiting`.  The intermediate
one-pointer `malloc` whose result is immediately overwritten by `jcr`, and
the `StartServer` thread spawn, have no effect on the lists and are
omitted. -/
def JobqAdd (jq : Jobq) (now : Int) (jcr : JCR) : Jobq × Int :=
  if !jq.valid then (jq, EINVAL)
  else if !jcr.canceled && now < jcr.sched_time then (jq, 0)
  else if jcr.canceled then ({ jq with ready := jcr :: jq.ready }, 0)
  else ({ jq with waiting := jobqAddWaiting jcr jq.waiting }, 0)

/-- JobqRemove from the source.  The search loop `for (auto item :
waiting_jobs)` declares a new `item` that shadows the function-scope
`JobControlRecord* item`, so after the loop the outer `item` is still
uninitialized; it is that indeterminate pointer value — passed here as
`garbage` — which the code then removes from the waiting list
(`std::list::remove` erases every element equal to it) and pushes onto the
front of the ready list. -/
def JobqRemove (jq : Jobq) (garbage : JCR) (jcr : JCR) : Jobq × Int :=
  if !jq.valid then (jq, EINVAL)
  else if jq.waiting.contains jcr then
    ({ jq with
        waiting := jq.waiting.filter (fun x => x ≠ garbage),
        ready := garbage :: jq.ready }, 0)
  else (jq, EINVAL)

/-- The cohort-priority selection of the worker loop as written in the
source: it evaluates `*re` for `re = running_jobs.begin()` to decide which
head supplies the priority.  When the running list is non-empty this yields
the running head's priority; when it is empty, dereferencing the end
iterator is undefined behavior (modelled `none`), and the
waiting-head branch is reachable only through that undefined read. -/
def cohortPriority (running _waiting : List JCR) : Option Int :=
  match running with
  | r :: _ => some r.priority
  | [] => none

/-- The mixed-priority scan of the worker loop as written in the source: it
advances `re` over the running list, but its guard is `re !=
waiting_jobs.end()` — the end iterator of a different list, which `re`
never reaches — so the walk stops only by finding a job whose definition
forbids mixed priority (`some false`); when every running job allows
mixing, the walk advances past the end of the running list and dereferences
a non-element, undefined behavior (modelled `none`). -/
def runningAllowMixScan (cfg : Config) : List JCR → Option Bool
  | [] => none
  | r :: rest =>
    if cfg.jobAllowMixed r.jobRes then runningAllowMixScan cfg rest else some false

/-- A sample configuration for the concrete instances below: every
`MaxConcurrentJobs` is 1, mixed priorities are not allowed, and the
reschedule policy is reschedule-on-error with cap 2 and interval 60. -/
def sampleCfg : Config where
  clientMax := fun _ => 1
  jobMax := fun _ => 1
  storeMax := fun _ => 1
  jobAllowMixed := fun _ => false
  jobRescheduleOnError := fun _ => true
  jobRescheduleIncomplete := fun _ => false
  jobRescheduleTimes := fun _ => 2
  jobRescheduleInterval := fun _ => 60

/-- A configuration whose every job definition allows mixed priority. -/
def mixCfg : Config := { sampleCfg with jobAllowMixed := fun _ => true }

/-- The all-zero registry. -/
def sampleReg : Registry where
  clientNCJ := fun _ => 0
  jobNCJ := fun _ => 0
  storeNCJ := fun _ => 0
  storeNCRJ := fun _ => 0

/-- A failed backup job referencing client 0, read storage 1, write
storage 2 and job definition 0. -/
def sampleJcr : JCR where
  JobId := 1
  jobType := .Backup
  jobLevel := .Full
  status := .ErrorTerminated
  priority := 10
  client := some 0
  jobRes := 0
  read_storage := some 1
  write_storage := some 2
  IgnoreClientConcurrency := false
  IgnoreStorageConcurrency := false
  acquired_resource_locks := false
  MigrateJobId := 5
  reschedule_count := 1
  sched_time := 0
  JobBytes := 0
  JobErrors := 3
  canceled := false

/-- A Migrate control job (`MigrateJobId == 0`): client and storage
concurrency are ignored for it, the job-definition permit is not. -/
def migControlJcr : JCR :=
  { sampleJcr with jobType := .Migrate, MigrateJobId := 0 }

/-- A job with recorded bytes, driving the clone path of `RescheduleJob`. -/
def cloneBytesJcr : JCR := { sampleJcr with JobBytes := 1024, reschedule_count := 0 }

/-- A job with no resource references, as touched by the backout path. -/
def detachedJcr : JCR :=
  { sampleJcr with client := none, read_storage := none, write_storage := none }

/-- A waiting job of priority value 10 (higher priority). -/
def waitingJcrA : JCR := { sampleJcr with JobId := 101, priority := 10 }

/-- A waiting job of priority value 20 (lower priority). -/
def waitingJcrB : JCR := { sampleJcr with JobId := 102, priority := 20 }

/-- A job record modelling the indeterminate pointer value left in
`JobqRemove`'s uninitialized variable. -/
def garbageJcr : JCR := { sampleJcr with JobId := 999 }

/-- A valid queue whose waiting list holds only `waitingJcrA`. -/
def waitingQueueA : Jobq := ⟨true, [waitingJcrA], [], []⟩

/-- A valid queue whose waiting list holds only `waitingJcrB`. -/
def waitingQueueB : Jobq := ⟨true, [waitingJcrB], [], []⟩

/-! Helper lemmas about the permit operations. -/

theorem applyTypeFlags_read_storage (j : JCR) :
    (applyTypeFlags j).read_storage = j.read_storage := by
  cases j; rename_i t _ _ _ _ _ _ _ _ _ _ _ _ _ _ _ _
  cases t <;> simp [applyTypeFlags] <;> split <;> rfl

theorem applyTypeFlags_write_storage (j : JCR) :
    (applyTypeFlags j).write_storage = j.write_storage := by
  cases j; rename_i t _ _ _ _ _ _ _ _ _ _ _ _ _ _ _ _
  cases t <;> simp [applyTypeFlags] <;> split <;> rfl

theorem applyTypeFlags_client (j : JCR) :
    (applyTypeFlags j).client = j.client := by
  cases j; rename_i t _ _ _ _ _ _ _ _ _ _ _ _ _ _ _ _
  cases t <;> simp [applyTypeFlags] <;> split <;> rfl

theorem applyTypeFlags_jobRes (j : JCR) :
    (applyTypeFlags j).jobRes = j.jobRes := by
  cases j; rename_i t _ _ _ _ _ _ _ _ _ _ _ _ _ _ _ _
  cases t <;> simp [applyTypeFlags] <;> split <;> rfl

theorem applyTypeFlags_acquired (j : JCR) :
    (applyTypeFlags j).acquired_resource_locks = j.acquired_resource_locks := by
  cases j; rename_i t _ _ _ _ _ _ _ _ _ _ _ _ _ _ _ _
  cases t <;> simp [applyTypeFlags] <;> split <;> rfl

theorem applyTypeFlags_status (j : JCR) :
    (applyTypeFlags j).status = j.status := by
  cases j; rename_i t _ _ _ _ _ _ _ _ _ _ _ _ _ _ _ _
  cases t <;> simp [applyTypeFlags] <;> split <;> rfl

theorem incReadStore_wrap (cfg : Config) (jcr : JCR) (st : Registry) :
    (if jcr.read_storage.isSome then IncReadStore cfg jcr st else ⟨true, st⟩)
      = IncReadStore cfg jcr st := by
  cases h : jcr.read_storage <;> cases hig : jcr.IgnoreStorageConcurrency <;>
    simp [IncReadStore, h, hig]

theorem incWriteStore_wrap (cfg : Config) (jcr : JCR) (st : Registry) :
    (if jcr.write_storage.isSome then IncWriteStore cfg jcr st else ⟨true, st⟩)
      = IncWriteStore cfg jcr st := by
  cases h : jcr.write_storage <;> cases hig : jcr.IgnoreStorageConcurrency <;>
    simp [IncWriteStore, h, hig]

theorem incReadStore_fail (cfg : Config) (jcr : JCR) (st : Registry)
    (h : (IncReadStore cfg jcr st).ok = false) : (IncReadStore cfg jcr st).st = st := by
  unfold IncReadStore at h ⊢
  cases hig : jcr.IgnoreStorageConcurrency
  · cases hrs : jcr.read_storage with
    | none => simp [hig, hrs]
    | some s =>
      by_cases hg : st.storeNCJ s < cfg.storeMax s
      · simp [hig, hrs, hg] at h
      · simp [hig, hrs, hg]
  · simp [hig] at h

theorem incWriteStore_fail (cfg : Config) (jcr : JCR) (st : Registry)
    (h : (IncWriteStore cfg jcr st).ok = false) : (IncWriteStore cfg jcr st).st = st := by
  unfold IncWriteStore at h ⊢
  cases hig : jcr.IgnoreStorageConcurrency
  · cases hws : jcr.write_storage with
    | none => simp [hig, hws]
    | some s =>
      by_cases hg : st.storeNCJ s < cfg.storeMax s
      · simp [hig, hws, hg] at h
      · simp [hig, hws, hg]
  · simp [hig] at h

theorem incClientConcurrency_fail (cfg : Config) (jcr : JCR) (st : Registry)
    (h : (IncClientConcurrency cfg jcr st).ok = false) :
    (IncClientConcurrency cfg jcr st).st = st := by
  unfold IncClientConcurrency at h ⊢
  cases hc : jcr.client with
  | none => simp [hc]
  | some c =>
    cases hig : jcr.IgnoreClientConcurrency
    · by_cases hg : st.clientNCJ c < cfg.clientMax c
      · simp [hc, hig, hg] at h
      · simp [hc, hig, hg]
    · simp [hc, hig] at h

theorem incJobConcurrency_fail (cfg : Config) (jcr : JCR) (st : Registry)
    (h : (IncJobConcurrency cfg jcr st).ok = false) :
    (IncJobConcurrency cfg jcr st).st = st := by
  unfold IncJobConcurrency at h ⊢
  by_cases hg : st.jobNCJ jcr.jobRes < cfg.jobMax jcr.jobRes
  · simp [hg] at h
  · simp [hg]

theorem incReadStore_clientNCJ (cfg : Config) (jcr : JCR) (st : Registry) :
    (IncReadStore cfg jcr st).st.clientNCJ = st.clientNCJ := by
  unfold IncReadStore
  cases hig : jcr.IgnoreStorageConcurrency
  · cases hrs : jcr.read_storage with
    | none => simp [hig, hrs]
    | some s => by_cases hg : st.storeNCJ s < cfg.storeMax s <;> simp [hig, hrs, hg]
  · simp [hig]

theorem incReadStore_jobNCJ (cfg : Config) (jcr : JCR) (st : Registry) :
    (IncReadStore cfg jcr st).st.jobNCJ = st.jobNCJ := by
  unfold IncReadStore
  cases hig : jcr.IgnoreStorageConcurrency
  · cases hrs : jcr.read_storage with
    | none => simp [hig, hrs]
    | some s => by_cases hg : st.storeNCJ s < cfg.storeMax s <;> simp [hig, hrs, hg]
  · simp [hig]

theorem incWriteStore_clientNCJ (cfg : Config) (jcr : JCR) (st : Registry) :
    (IncWriteStore cfg jcr st).st.clientNCJ = st.clientNCJ := by
  unfold IncWriteStore
  cases hig : jcr.IgnoreStorageConcurrency
  · cases hws : jcr.write_storage with
    | none => simp [hig, hws]
    | some s => by_cases hg : st.storeNCJ s < cfg.storeMax s <;> simp [hig, hws, hg]
  · simp [hig]

theorem incWriteStore_jobNCJ (cfg : Config) (jcr : JCR) (st : Registry) :
    (IncWriteStore cfg jcr st).st.jobNCJ = st.jobNCJ := by
  unfold IncWriteStore
  cases hig : jcr.IgnoreStorageConcurrency
  · cases hws : jcr.write_storage with
    | none => simp [hig, hws]
    | some s => by_cases hg : st.storeNCJ s < cfg.storeMax s <;> simp [hig, hws, hg]
  · simp [hig]

theorem incWriteStore_storeNCRJ (cfg : Config) (jcr : JCR) (st : Registry) :
    (IncWriteStore cfg jcr st).st.storeNCRJ = st.storeNCRJ := by
  unfold IncWriteStore
  cases hig : jcr.IgnoreStorageConcurrency
  · cases hws : jcr.write_storage with
    | none => simp [hig, hws]
    | some s => by_cases hg : st.storeNCJ s < cfg.storeMax s <;> simp [hig, hws, hg]
  · simp [hig]

theorem incClientConcurrency_storeNCJ (cfg : Config) (jcr : JCR) (st : Registry) :
    (IncClientConcurrency cfg jcr st).st.storeNCJ = st.storeNCJ := by
  unfold IncClientConcurrency
  cases hc : jcr.client with
  | none => simp [hc]
  | some c =>
    cases hig : jcr.IgnoreClientConcurrency
    · by_cases hg : st.clientNCJ c < cfg.clientMax c <;> simp [hc, hig, hg]
    · simp [hc, hig]

theorem incClientConcurrency_storeNCRJ (cfg : Config) (jcr : JCR) (st : Registry) :
    (IncClientConcurrency cfg jcr st).st.storeNCRJ = st.storeNCRJ := by
  unfold IncClientConcurrency
  cases hc : jcr.client with
  | none => simp [hc]
  | some c =>
    cases hig : jcr.IgnoreClientConcurrency
    · by_cases hg : st.clientNCJ c < cfg.clientMax c <;> simp [hc, hig, hg]
    · simp [hc, hig]

theorem incClientConcurrency_jobNCJ (cfg : Config) (jcr : JCR) (st : Registry) :
    (IncClientConcurrency cfg jcr st).st.jobNCJ = st.jobNCJ := by
  unfold IncClientConcurrency
  cases hc : jcr.client with
  | none => simp [hc]
  | some c =>
    cases hig : jcr.IgnoreClientConcurrency
    · by_cases hg : st.clientNCJ c < cfg.clientMax c <;> simp [hc, hig, hg]
    · simp [hc, hig]

theorem undoRead (cfg : Config) (jcr : JCR) (st st' : Registry)
    (hok : (IncReadStore cfg jcr st).ok = true)
    (h1 : st'.storeNCJ = (IncReadStore cfg jcr st).st.storeNCJ)
    (h2 : st'.storeNCRJ = (IncReadStore cfg jcr st).st.storeNCRJ) :
    (DecReadStore jcr st').st
      = { st' with storeNCJ := st.storeNCJ, storeNCRJ := st.storeNCRJ } := by
  cases hig : jcr.IgnoreStorageConcurrency with
  | true =>
    simp [IncReadStore, hig] at h1 h2
    refine Registry.ext ?_ ?_ ?_ ?_ <;>
      cases hrs : jcr.read_storage <;> simp [DecReadStore, hrs, hig, h1, h2]
  | false =>
    cases hrs : jcr.read_storage with
    | none =>
      simp [IncReadStore, hig, hrs] at h1 h2
      refine Registry.ext ?_ ?_ ?_ ?_ <;> simp [DecReadStore, hrs, h1, h2]
    | some s =>
      by_cases hg : st.storeNCJ s < cfg.storeMax s
      · simp [IncReadStore, hig, hrs, hg] at h1 h2
        refine Registry.ext ?_ ?_ ?_ ?_ <;>
          simp [DecReadStore, hrs, hig, h1, h2, Function.update_same,
            Function.update_idem, Function.update_eq_self]
      · simp [IncReadStore, hig, hrs, hg] at hok

theorem undoWrite (cfg : Config) (jcr : JCR) (st st' : Registry)
    (hok : (IncWriteStore cfg jcr st).ok = true)
    (h1 : st'.storeNCJ = (IncWriteStore cfg jcr st).st.storeNCJ) :
    (DecWriteStore jcr st').st = { st' with storeNCJ := st.storeNCJ } := by
  cases hig : jcr.IgnoreStorageConcurrency with
  | true =>
    simp [IncWriteStore, hig] at h1
    refine Registry.ext ?_ ?_ ?_ ?_ <;>
      cases hws : jcr.write_storage <;> simp [DecWriteStore, hws, hig, h1]
  | false =>
    cases hws : jcr.write_storage with
    | none =>
      simp [IncWriteStore, hig, hws] at h1
      refine Registry.ext ?_ ?_ ?_ ?_ <;> simp [DecWriteStore, hws, h1]
    | some s =>
      by_cases hg : st.storeNCJ s < cfg.storeMax s
      · simp [IncWriteStore, hig, hws, hg] at h1
        refine Registry.ext ?_ ?_ ?_ ?_ <;>
          simp [DecWriteStore, hws, hig, h1, Function.update_same,
            Function.update_idem, Function.update_eq_self]
      · simp [IncWriteStore, hig, hws, hg] at hok

theorem undoClient (cfg : Config) (jcr : JCR) (st st' : Registry)
    (hok : (IncClientConcurrency cfg jcr st).ok = true)
    (h1 : st'.clientNCJ = (IncClientConcurrency cfg jcr st).st.clientNCJ) :
    (DecClientConcurrency jcr st').st = { st' with clientNCJ := st.clientNCJ } := by
  cases hig : jcr.IgnoreClientConcurrency with
  | true =>
    cases hc : jcr.client <;> simp [IncClientConcurrency, hig, hc] at h1 <;>
      ( refine Registry.ext ?_ ?_ ?_ ?_ <;> simp [DecClientConcurrency, hc, hig, h1] )
  | false =>
    cases hc : jcr.client with
    | none =>
      simp [IncClientConcurrency, hig, hc] at h1
      refine Registry.ext ?_ ?_ ?_ ?_ <;> simp [DecClientConcurrency, hc, hig, h1]
    | some c =>
      by_cases hg : st.clientNCJ c < cfg.clientMax c
      · simp [IncClientConcurrency, hig, hc, hg] at h1
        refine Registry.ext ?_ ?_ ?_ ?_ <;>
          simp [DecClientConcurrency, hc, hig, h1, Function.update_same,
            Function.update_idem, Function.update_eq_self]
      · simp [IncClientConcurrency, hig, hc, hg] at hok

/-- C1: Admission (`AcquireResources`) is all-or-nothing.  For every
configuration, job and registry state: when no needed permit fails
(`failingPermit` returns `none`), the call returns success and sets
`acquired_resource_locks`; when some permit fails, the call returns
failure, leaves `acquired_resource_locks` false, sets the job's status to
the wait kind of the failing permit (WaitStoreRes for either storage
permit, WaitClientRes for the client permit, WaitJobRes for the
job-definition permit), and the registry is exactly the initial one — every
permit acquired earlier in the attempt has been released, so the net change
to every concurrency counter is zero. -/
theorem acquireResources_all_or_nothing (cfg : Config) (jcr0 : JCR) (st0 : Registry) :
    match failingPermit cfg jcr0 st0 with
    | none =>
        (AcquireResources cfg jcr0 st0).ok = true
        ∧ (AcquireResources cfg jcr0 st0).jcr.acquired_resource_locks = true
    | some p =>
        (AcquireResources cfg jcr0 st0).ok = false
        ∧ (AcquireResources cfg jcr0 st0).jcr.acquired_resource_locks = false
        ∧ (AcquireResources cfg jcr0 st0).st = st0
        ∧ (AcquireResources cfg jcr0 st0).jcr.status = waitKind p := by
  unfold AcquireResources failingPermit
  simp only [incReadStore_wrap, incWriteStore_wrap]
  set jcr := applyTypeFlags { jcr0 with acquired_resource_locks := false } with hjcr
  have hacq : jcr.acquired_resource_locks = false := by
    rw [hjcr, applyTypeFlags_acquired]
  cases h1 : (IncReadStore cfg jcr st0).ok with
  | false =>
    simp only [h1, Bool.false_eq_true, if_false]
    exact ⟨by trivial, hacq, incReadStore_fail cfg jcr st0 h1, by trivial⟩
  | true =>
    simp only [h1, if_true]
    cases h2 : (IncWriteStore cfg jcr (IncReadStore cfg jcr st0).st).ok with
    | false =>
      simp only [h2, Bool.false_eq_true, if_false]
      have hst : (DecReadStore jcr (IncWriteStore cfg jcr
          (IncReadStore cfg jcr st0).st).st).st = st0 := by
        rw [incWriteStore_fail _ _ _ h2, undoRead cfg jcr st0 _ h1 rfl rfl]
        refine Registry.ext ?_ ?_ ?_ ?_ <;>
          simp [incReadStore_clientNCJ, incReadStore_jobNCJ]
      exact ⟨by trivial, hacq, hst, by trivial⟩
    | true =>
      simp only [h2, if_true]
      cases h3 : (IncClientConcurrency cfg jcr (IncWriteStore cfg jcr
          (IncReadStore cfg jcr st0).st).st).ok with
      | false =>
        simp only [h3, Bool.false_eq_true, if_false]
        have hst : (DecReadStore jcr (DecWriteStore jcr (IncClientConcurrency cfg jcr
            (IncWriteStore cfg jcr (IncReadStore cfg jcr st0).st).st).st).st).st = st0 := by
          rw [incClientConcurrency_fail _ _ _ h3,
            undoWrite cfg jcr (IncReadStore cfg jcr st0).st _ h2 rfl,
            undoRead cfg jcr st0 _ h1 (by simp) (by simp [incWriteStore_storeNCRJ])]
          refine Registry.ext ?_ ?_ ?_ ?_ <;>
            simp [incReadStore_clientNCJ, incReadStore_jobNCJ,
              incWriteStore_clientNCJ, incWriteStore_jobNCJ]
        exact ⟨by trivial, hacq, hst, by trivial⟩
      | true =>
        simp only [h3, if_true]
        cases h4 : (IncJobConcurrency cfg jcr (IncClientConcurrency cfg jcr
            (IncWriteStore cfg jcr (IncReadStore cfg jcr st0).st).st).st).ok with
        | false =>
          simp only [h4, Bool.false_eq_true, if_false]
          have hst : (DecClientConcurrency jcr (DecReadStore jcr (DecWriteStore jcr
              (IncJobConcurrency cfg jcr (IncClientConcurrency cfg jcr (IncWriteStore cfg jcr
                (IncReadStore cfg jcr st0).st).st).st).st).st).st).st = st0 := by
            rw [incJobConcurrency_fail _ _ _ h4,
              undoWrite cfg jcr (IncReadStore cfg jcr st0).st _ h2
                (by simp [incClientConcurrency_storeNCJ]),
              undoRead cfg jcr st0 _ h1 (by simp)
                (by simp [incClientConcurrency_storeNCRJ, incWriteStore_storeNCRJ]),
              undoClient cfg jcr (IncWriteStore cfg jcr
                (IncReadStore cfg jcr st0).st).st _ h3 (by simp)]
            refine Registry.ext ?_ ?_ ?_ ?_ <;>
              simp [incReadStore_clientNCJ, incReadStore_jobNCJ,
                incWriteStore_clientNCJ, incWriteStore_jobNCJ,
                incClientConcurrency_jobNCJ]
          exact ⟨by trivial, hacq, hst, by trivial⟩
        | true =>
          simp only [h4, if_true]
          exact ⟨by trivial, by trivial⟩

/-- C2 (code evaluated at the failing inputs): the worker loop's promotion
pass reads the running head through `*re` even when the running list is
empty (undefined behavior, `cohortPriority` is `none` there, so the
waiting-head branch of the claim is reachable only through that undefined
read), and its mixed-priority scan, whose guard compares the running
iterator against the end of the waiting list, runs past the end of the
running list whenever every running job allows mixed priority (`none`
instead of the claimed conclusion that mixing is allowed); only the
disallowing outcome is ever produced by defined behavior. -/
theorem promotion_scan_undefined :
    cohortPriority ([] : List JCR) [waitingJcrA] = none
    ∧ runningAllowMixScan mixCfg [sampleJcr] = none
    ∧ runningAllowMixScan sampleCfg [sampleJcr] = some false := by
  refine ⟨rfl, by decide, by decide⟩

/-- C3 (code evaluated at the failing input): submitting job A of priority
10 to a queue whose waiting list holds only job B of priority 20 makes the
insertion loop insert the found entry B before itself — the waiting list
becomes [B, B] and the submitted A is dropped — instead of the claimed
[A, B] containing the submitted jcr exactly once. -/
theorem jobqAdd_insert_drops_submitted :
    (JobqAdd waitingQueueB 0 waitingJcrA).1.waiting = [waitingJcrB, waitingJcrB]
    ∧ waitingJcrA ∉ (JobqAdd waitingQueueB 0 waitingJcrA).1.waiting := by
  refine ⟨by decide, by decide⟩

/-- C4: `RescheduleJob` increments the reschedule count exactly when the
claimed candidate condition holds — the cap (`RescheduleTimes == 0` or
count strictly below it) together with either the incomplete-backup case or
the failed-backup case — and then moves `sched_time` to
`now + RescheduleInterval`; under a positive cap the count therefore never
exceeds `RescheduleTimes`. -/
theorem rescheduleJob_candidate_iff_cap (cfg : Config) (d : Bool) (now : Int) (j : JCR) :
    ((RescheduleJob cfg d now j).1.reschedule_count = j.reschedule_count + 1
      ↔ ((cfg.jobRescheduleTimes j.jobRes = 0
            ∨ j.reschedule_count < cfg.jobRescheduleTimes j.jobRes)
          ∧ ((cfg.jobRescheduleIncomplete j.jobRes = true ∧ j.status = JobStatus.Incomplete
                ∧ j.jobType = JobType.Backup ∧ j.jobLevel ≠ JobLevel.Base)
             ∨ (cfg.jobRescheduleOnError j.jobRes = true ∧ j.status ≠ JobStatus.TerminatedOk
                ∧ j.status ≠ JobStatus.Canceled ∧ j.jobType = JobType.Backup))))
    ∧ (RescheduleJob cfg d now j).1.sched_time
        = (if reschedOk cfg j then now + cfg.jobRescheduleInterval j.jobRes else j.sched_time)
    ∧ (0 < cfg.jobRescheduleTimes j.jobRes →
        j.reschedule_count ≤ cfg.jobRescheduleTimes j.jobRes →
        (RescheduleJob cfg d now j).1.reschedule_count
          ≤ cfg.jobRescheduleTimes j.jobRes) := by
  have hiff : reschedOk cfg j = true ↔
      ((cfg.jobRescheduleTimes j.jobRes = 0
          ∨ j.reschedule_count < cfg.jobRescheduleTimes j.jobRes)
        ∧ ((cfg.jobRescheduleIncomplete j.jobRes = true ∧ j.status = JobStatus.Incomplete
              ∧ j.jobType = JobType.Backup ∧ j.jobLevel ≠ JobLevel.Base)
           ∨ (cfg.jobRescheduleOnError j.jobRes = true ∧ j.status ≠ JobStatus.TerminatedOk
              ∧ j.status ≠ JobStatus.Canceled ∧ j.jobType = JobType.Backup))) := by
    simp [reschedOk]
    tauto
  have hcount : (RescheduleJob cfg d now j).1.reschedule_count
      = (if reschedOk cfg j then j.reschedule_count + 1 else j.reschedule_count) := by
    cases hr : reschedOk cfg j <;> cases d <;> cases hb : (j.JobBytes == 0) <;>
      simp [RescheduleJob, hr, hb]
  have hsched : (RescheduleJob cfg d now j).1.sched_time
      = (if reschedOk cfg j then now + cfg.jobRescheduleInterval j.jobRes
         else j.sched_time) := by
    cases hr : reschedOk cfg j <;> cases d <;> cases hb : (j.JobBytes == 0) <;>
      simp [RescheduleJob, hr, hb]
  refine ⟨?_, hsched, ?_⟩
  · rw [hcount]
    cases hr : reschedOk cfg j
    · simp only [Bool.false_eq_true, if_false]
      constructor
      · intro h
        omega
      · intro hp
        have := hiff.mpr hp
        rw [hr] at this
        cases this
    · simp only [if_true]
      exact iff_of_true (by trivial) (hiff.mp hr)
  · intro hpos hle
    rw [hcount]
    cases hr : reschedOk cfg j
    · simp only [Bool.false_eq_true, if_false]
      exact hle
    · simp only [if_true]
      have hp := hiff.mp hr
      rcases hp.1 with h0 | hlt
      · omega
      · omega

/-- Witness for C4 at a concrete failed backup with count 1 and cap 2: the
count after `RescheduleJob` stays within the cap. -/
theorem rescheduleJob_candidate_iff_cap_witness :
    (RescheduleJob sampleCfg true 0 sampleJcr).1.reschedule_count
      ≤ sampleCfg.jobRescheduleTimes sampleJcr.jobRes :=
  (rescheduleJob_candidate_iff_cap sampleCfg true 0 sampleJcr).2.2 (by decide) (by decide)

/-- C5 (counterexample): a rescheduled job that passes the duplicate-job
oracle but wrote bytes (clone disposition) makes `RescheduleJob` return
false, not the claimed requeued result: the candidate test passes, the
count is incremented, yet the return value is false. -/
theorem rescheduleJob_clone_not_requeued :
    reschedOk sampleCfg cloneBytesJcr = true
    ∧ cloneBytesJcr.JobBytes ≠ 0
    ∧ (RescheduleJob sampleCfg true 0 cloneBytesJcr).1.reschedule_count
        = cloneBytesJcr.reschedule_count + 1
    ∧ (RescheduleJob sampleCfg true 0 cloneBytesJcr).2 = false := by
  refine ⟨by decide, by decide, by decide, by decide⟩

/-- C5 (amended): `RescheduleJob` returns the requeued result exactly in
the in-place disposition — candidate test passed, duplicate-job oracle
passed, and zero bytes written; in the clone disposition (bytes written) it
returns false, so the worker's drain loop does free the original jcr. -/
theorem rescheduleJob_requeued_iff_in_place (cfg : Config) (d : Bool) (now : Int) (j : JCR) :
    (RescheduleJob cfg d now j).2 = (reschedOk cfg j && d && (j.JobBytes == 0)) := by
  cases hr : reschedOk cfg j <;> cases d <;> cases hb : (j.JobBytes == 0) <;>
    simp [RescheduleJob, hr, hb]

/-- C6: whenever a resource applies (reference set, ignore flag clear),
each try-increment returns true exactly when the counter is below its
maximum, in which case the counter grows by one, and otherwise leaves it
unchanged; the read-storage operation moves the `num_read` sub-counter
(`NumConcurrentReadJobs`) together with `NumConcurrentJobs`, on increment
and on decrement. -/
theorem tryInc_spec (cfg : Config) (jcr : JCR) (st : Registry) (c s w : Nat)
    (hc : jcr.client = some c) (hic : jcr.IgnoreClientConcurrency = false)
    (hr : jcr.read_storage = some s) (hw : jcr.write_storage = some w)
    (his : jcr.IgnoreStorageConcurrency = false) :
    ((IncClientConcurrency cfg jcr st).ok = true ↔ st.clientNCJ c < cfg.clientMax c)
    ∧ (IncClientConcurrency cfg jcr st).st.clientNCJ c
        = (if st.clientNCJ c < cfg.clientMax c then st.clientNCJ c + 1 else st.clientNCJ c)
    ∧ ((IncJobConcurrency cfg jcr st).ok = true ↔ st.jobNCJ jcr.jobRes < cfg.jobMax jcr.jobRes)
    ∧ (IncJobConcurrency cfg jcr st).st.jobNCJ jcr.jobRes
        = (if st.jobNCJ jcr.jobRes < cfg.jobMax jcr.jobRes then st.jobNCJ jcr.jobRes + 1
           else st.jobNCJ jcr.jobRes)
    ∧ ((IncReadStore cfg jcr st).ok = true ↔ st.storeNCJ s < cfg.storeMax s)
    ∧ (IncReadStore cfg jcr st).st.storeNCJ s
        = (if st.storeNCJ s < cfg.storeMax s then st.storeNCJ s + 1 else st.storeNCJ s)
    ∧ (IncReadStore cfg jcr st).st.storeNCRJ s
        = (if st.storeNCJ s < cfg.storeMax s then st.storeNCRJ s + 1 else st.storeNCRJ s)
    ∧ ((IncWriteStore cfg jcr st).ok = true ↔ st.storeNCJ w < cfg.storeMax w)
    ∧ (IncWriteStore cfg jcr st).st.storeNCJ w
        = (if st.storeNCJ w < cfg.storeMax w then st.storeNCJ w + 1 else st.storeNCJ w)
    ∧ (DecReadStore jcr st).st.storeNCJ s = st.storeNCJ s - 1
    ∧ (DecReadStore jcr st).st.storeNCRJ s = st.storeNCRJ s - 1 := by
  refine ⟨?_, ?_, ?_, ?_, ?_, ?_, ?_, ?_, ?_, ?_, ?_⟩
  · by_cases hg : st.clientNCJ c < cfg.clientMax c <;>
      simp [IncClientConcurrency, hc, hic, hg]
  · by_cases hg : st.clientNCJ c < cfg.clientMax c <;>
      simp [IncClientConcurrency, hc, hic, hg, Function.update_same]
  · by_cases hg : st.jobNCJ jcr.jobRes < cfg.jobMax jcr.jobRes <;>
      simp [IncJobConcurrency, hg]
  · by_cases hg : st.jobNCJ jcr.jobRes < cfg.jobMax jcr.jobRes <;>
      simp [IncJobConcurrency, hg, Function.update_same]
  · by_cases hg : st.storeNCJ s < cfg.storeMax s <;>
      simp [IncReadStore, hr, his, hg]
  · by_cases hg : st.storeNCJ s < cfg.storeMax s <;>
      simp [IncReadStore, hr, his, hg, Function.update_same]
  · by_cases hg : st.storeNCJ s < cfg.storeMax s <;>
      simp [IncReadStore, hr, his, hg, Function.update_same]
  · by_cases hg : st.storeNCJ w < cfg.storeMax w <;>
      simp [IncWriteStore, hw, his, hg]
  · by_cases hg : st.storeNCJ w < cfg.storeMax w <;>
      simp [IncWriteStore, hw, his, hg, Function.update_same]
  · simp [DecReadStore, hr, his, Function.update_same]
  · simp [DecReadStore, hr, his, Function.update_same]

/-- Witness for C6 at the sample job and the all-zero registry: the client
try-increment succeeds exactly when 0 is below the limit 1. -/
theorem tryInc_spec_witness :
    (IncClientConcurrency sampleCfg sampleJcr sampleReg).ok = true
      ↔ sampleReg.clientNCJ 0 < sampleCfg.clientMax 0 :=
  (tryInc_spec sampleCfg sampleJcr sampleReg 0 1 2 rfl rfl rfl rfl rfl).1

/-- C7 (code evaluated at the failing input): removing `waitingJcrA` from a
valid queue whose waiting list is exactly [waitingJcrA] finds it, but then
removes and pushes the uninitialized shadowed variable instead: the found
jcr stays on the waiting list, the indeterminate value is pushed onto
ready, and the call still reports success. -/
theorem jobqRemove_moves_indeterminate :
    (JobqRemove waitingQueueA garbageJcr waitingJcrA).1.waiting = [waitingJcrA]
    ∧ (JobqRemove waitingQueueA garbageJcr waitingJcrA).1.ready = [garbageJcr]
    ∧ (JobqRemove waitingQueueA garbageJcr waitingJcrA).2 = 0 := by
  refine ⟨by decide, by decide, by decide⟩

/-- C8 (counterexample): `DecJobConcurrency` drives the job definition's
counter to a negative value while logging no fatal message, contrary to the
claim that every dec operation logs a fatal message on a negative result. -/
theorem decJobConcurrency_negative_silent :
    (DecJobConcurrency sampleJcr sampleReg).st.jobNCJ sampleJcr.jobRes = -1
    ∧ (DecJobConcurrency sampleJcr sampleReg).fatal = [] := by
  refine ⟨by decide, rfl⟩

/-- C8 (amended): every dec operation decrements the applicable counter and
never aborts or restores it; `DecReadStore` and `DecWriteStore` log a fatal
message exactly when a resulting value is negative, while
`DecClientConcurrency` and `DecJobConcurrency` log nothing. -/
theorem dec_decrements_and_logs (jcr : JCR) (st : Registry) (c s w : Nat)
    (hc : jcr.client = some c) (hic : jcr.IgnoreClientConcurrency = false)
    (hr : jcr.read_storage = some s) (hw : jcr.write_storage = some w)
    (his : jcr.IgnoreStorageConcurrency = false) :
    (DecClientConcurrency jcr st).st.clientNCJ c = st.clientNCJ c - 1
    ∧ (DecClientConcurrency jcr st).fatal = []
    ∧ (DecJobConcurrency jcr st).st.jobNCJ jcr.jobRes = st.jobNCJ jcr.jobRes - 1
    ∧ (DecJobConcurrency jcr st).fatal = []
    ∧ (DecReadStore jcr st).st.storeNCJ s = st.storeNCJ s - 1
    ∧ (DecReadStore jcr st).st.storeNCRJ s = st.storeNCRJ s - 1
    ∧ ((DecReadStore jcr st).fatal ≠ []
        ↔ (st.storeNCRJ s - 1 < 0 ∨ st.storeNCJ s - 1 < 0))
    ∧ (DecWriteStore jcr st).st.storeNCJ w = st.storeNCJ w - 1
    ∧ ((DecWriteStore jcr st).fatal ≠ [] ↔ st.storeNCJ w - 1 < 0) := by
  refine ⟨?_, ?_, ?_, ?_, ?_, ?_, ?_, ?_, ?_⟩
  · simp [DecClientConcurrency, hc, hic, Function.update_same]
  · simp [DecClientConcurrency, hc, hic]
  · simp [DecJobConcurrency, Function.update_same]
  · simp [DecJobConcurrency]
  · simp [DecReadStore, hr, his, Function.update_same]
  · simp [DecReadStore, hr, his, Function.update_same]
  · by_cases h1 : st.storeNCRJ s - 1 < 0 <;> by_cases h2 : st.storeNCJ s - 1 < 0 <;>
      simp [DecReadStore, hr, his, h1, h2]
  · simp [DecWriteStore, hw, his, Function.update_same]
  · by_cases h2 : st.storeNCJ w - 1 < 0 <;> simp [DecWriteStore, hw, his, h2]

/-- Witness for the amended C8 at the sample job and the all-zero registry:
the client counter is decremented. -/
theorem dec_decrements_and_logs_witness :
    (DecClientConcurrency sampleJcr sampleReg).st.clientNCJ 0
      = sampleReg.clientNCJ 0 - 1 :=
  (dec_decrements_and_logs sampleJcr sampleReg 0 1 2 rfl rfl rfl rfl rfl).1

/-- C9: each release operation is a guarded no-op whenever the permit could
not have been acquired — `DecReadStore` and `DecWriteStore` leave the whole
registry unchanged when the storage reference is unset or
`IgnoreStorageConcurrency` is set, and `DecClientConcurrency` leaves it
unchanged when `IgnoreClientConcurrency` is set or the client reference is
unset — so a backout call never decrements a counter that was not
incremented in the same attempt. -/
theorem dec_guarded_noop (jcr : JCR) (st : Registry) :
    ((jcr.read_storage = none ∨ jcr.IgnoreStorageConcurrency = true) →
      (DecReadStore jcr st).st = st)
    ∧ ((jcr.write_storage = none ∨ jcr.IgnoreStorageConcurrency = true) →
      (DecWriteStore jcr st).st = st)
    ∧ ((jcr.IgnoreClientConcurrency = true ∨ jcr.client = none) →
      (DecClientConcurrency jcr st).st = st) := by
  refine ⟨?_, ?_, ?_⟩
  · rintro (h | h)
    · simp [DecReadStore, h]
    · cases hrs : jcr.read_storage <;> simp [DecReadStore, hrs, h]
  · rintro (h | h)
    · simp [DecWriteStore, h]
    · cases hws : jcr.write_storage <;> simp [DecWriteStore, hws, h]
  · rintro (h | h)
    · simp [DecClientConcurrency, h]
    · cases hig : jcr.IgnoreClientConcurrency <;> simp [DecClientConcurrency, h, hig]

/-- Witness for C9 at a job with no resource references and the ignore
flags clear: all three release operations leave the registry unchanged. -/
theorem dec_guarded_noop_witness :
    (DecReadStore detachedJcr sampleReg).st = sampleReg
    ∧ (DecWriteStore detachedJcr sampleReg).st = sampleReg
    ∧ (DecClientConcurrency detachedJcr sampleReg).st = sampleReg :=
  ⟨(dec_guarded_noop detachedJcr sampleReg).1 (Or.inl rfl),
   (dec_guarded_noop detachedJcr sampleReg).2.1 (Or.inl rfl),
   (dec_guarded_noop detachedJcr sampleReg).2.2 (Or.inr rfl)⟩

/-- C10: the job-definition permit is enforced for every job without
exception: `IncJobConcurrency` always tests and increments the job
definition's counter against its `MaxConcurrentJobs`, `DecJobConcurrency`
always decrements it, and every successful admission — including Migrate,
Copy and Consolidate jobs, whose client and storage permits are ignored —
has passed the job-definition test and incremented its counter. -/
theorem jobPermit_always_enforced (cfg : Config) (jcr : JCR) (st : Registry) :
    ((IncJobConcurrency cfg jcr st).ok = true
      ↔ st.jobNCJ jcr.jobRes < cfg.jobMax jcr.jobRes)
    ∧ (IncJobConcurrency cfg jcr st).st.jobNCJ jcr.jobRes
        = (if st.jobNCJ jcr.jobRes < cfg.jobMax jcr.jobRes then st.jobNCJ jcr.jobRes + 1
           else st.jobNCJ jcr.jobRes)
    ∧ (DecJobConcurrency jcr st).st.jobNCJ jcr.jobRes = st.jobNCJ jcr.jobRes - 1
    ∧ ((AcquireResources cfg jcr st).ok = true →
        (AcquireResources cfg jcr st).st.jobNCJ jcr.jobRes = st.jobNCJ jcr.jobRes + 1
        ∧ st.jobNCJ jcr.jobRes < cfg.jobMax jcr.jobRes) := by
  refine ⟨?_, ?_, ?_, ?_⟩
  · by_cases hg : st.jobNCJ jcr.jobRes < cfg.jobMax jcr.jobRes <;>
      simp [IncJobConcurrency, hg]
  · by_cases hg : st.jobNCJ jcr.jobRes < cfg.jobMax jcr.jobRes <;>
      simp [IncJobConcurrency, hg, Function.update_same]
  · simp [DecJobConcurrency, Function.update_same]
  · intro hok
    unfold AcquireResources at hok ⊢
    simp only [incReadStore_wrap, incWriteStore_wrap] at hok ⊢
    set jcrF := applyTypeFlags { jcr with acquired_resource_locks := false } with hJ
    have hres : jcrF.jobRes = jcr.jobRes := by rw [hJ, applyTypeFlags_jobRes]
    cases h1 : (IncReadStore cfg jcrF st).ok with
    | false => rw [h1] at hok; simp at hok
    | true =>
      rw [h1] at hok
      simp only [if_true] at hok ⊢
      cases h2 : (IncWriteStore cfg jcrF (IncReadStore cfg jcrF st).st).ok with
      | false => rw [h2] at hok; simp at hok
      | true =>
        rw [h2] at hok
        simp only [if_true] at hok ⊢
        cases h3 : (IncClientConcurrency cfg jcrF (IncWriteStore cfg jcrF
            (IncReadStore cfg jcrF st).st).st).ok with
        | false => rw [h3] at hok; simp at hok
        | true =>
          rw [h3] at hok
          simp only [if_true] at hok ⊢
          cases h4 : (IncJobConcurrency cfg jcrF (IncClientConcurrency cfg jcrF
              (IncWriteStore cfg jcrF (IncReadStore cfg jcrF st).st).st).st).ok with
          | false => rw [h4] at hok; simp at hok
          | true =>
            simp only [if_true]
            have hj3 : (IncClientConcurrency cfg jcrF (IncWriteStore cfg jcrF
                (IncReadStore cfg jcrF st).st).st).st.jobNCJ = st.jobNCJ := by
              rw [incClientConcurrency_jobNCJ, incWriteStore_jobNCJ, incReadStore_jobNCJ]
            by_cases hg : (IncClientConcurrency cfg jcrF (IncWriteStore cfg jcrF
                (IncReadStore cfg jcrF st).st).st).st.jobNCJ jcrF.jobRes
                < cfg.jobMax jcrF.jobRes
            · have hg2 := hg
              rw [hj3, hres] at hg2
              constructor
              · simp [IncJobConcurrency, hg, hg2, Function.update_same, hj3, hres]
              · exact hg2
            · simp [IncJobConcurrency, hg] at h4

/-- Witness for C10 at a Migrate control job (client and storage permits
ignored) admitted against the all-zero registry: the job-definition counter
is incremented and was below its maximum. -/
theorem jobPermit_always_enforced_witness :
    (AcquireResources sampleCfg migControlJcr sampleReg).st.jobNCJ migControlJcr.jobRes
      = sampleReg.jobNCJ migControlJcr.jobRes + 1
    ∧ sampleReg.jobNCJ migControlJcr.jobRes < sampleCfg.jobMax migControlJcr.jobRes :=
  (jobPermit_always_enforced sampleCfg migControlJcr sampleReg).2.2.2 (by decide)

end Bareos
